import Mathlib

set_option maxRecDepth 8000

/-!
Shallow embedding of the resumable concurrent harvesting engine
(`src/discover.py` and `src/download.py`).

Discovery side (`discover.py`): the persistent discovery checkpoint
(`progress.json`, field `max_iter`), the in-memory result buffer backed by
the durable results collection (`results.json`), and the consecutive-failure
breaker, together form one state record `DiscState`.  All mutations in the
source are serialized through locks (`prog_lock`, `json_lock`, `fail_lock`),
so a concurrent execution is a sequential interleaving of the atomic
operations modelled here; an "interleaving" is a list of task completions.

Retrieval side (`download.py`): the retrieval checkpoint
(`progress_download.json`) is an association list, and `download_iter`'s
unbounded `while True` loop is modelled with explicit fuel (the loop body is
translated verbatim; fuel only bounds observation of a possibly infinite
run, and every theorem supplies enough fuel for the run it talks about).

Network effects are oracles: a discovery task's classified outcome is a
`ProbeOutcome` value, and retrieval's `fetch_image` is a boolean oracle over
the request URL and the attempt number.
-/

/-- Constant `BUFFER_LIMIT` from discover.py line 17. -/
def BUFFER_LIMIT : Nat := 50

/-- Constant `MAX_CONSECUTIVE_FAILS` from discover.py line 18. -/
def MAX_CONSECUTIVE_FAILS : Nat := 1000

/-- Constant `GWO_PUBLISHER` from discover.py line 15. -/
def GWO_PUBLISHER : String := "Gdańskie Wydawnictwo Oświatowe"

/-- A record buffered by discovery and persisted in `results.json`.
In the source these are dicts; optional fields model absent keys
(`title` is absent on error-audit records, `error` absent on results,
`skipped` present and true only on filtered records). -/
structure Entry where
  iter : Nat
  url : String
  title : Option String
  error : Option String
  skipped : Bool
deriving DecidableEq, Repr

/-- The discovery-side shared state: `maxIter` is the durable content of
`progress.json`, `buf` the in-memory `result_buf` deque, `store` the durable
content of `results.json`, `fails` the `consecutive_fails` counter.
`offered` is a ghost counter (never read by any operation) counting the
entries actually appended to the buffer, used to state conservation. -/
structure DiscState where
  maxIter : Int
  buf : List Entry
  store : List Entry
  fails : Nat
  offered : Nat
deriving DecidableEq, Repr

/-- Initial state: `progress.json` is initialized to `max_iter = -1` and
`results.json` to `[]` (discover.py lines 20-23). -/
def initDiscState : DiscState :=
  { maxIter := -1, buf := [], store := [], fails := 0, offered := 0 }

/-- Function `update_progress` (discover.py lines 31-40): under `prog_lock`, read
`max_iter`, and only if the candidate is strictly greater, write it back;
returns whether the store advanced. -/
def updateProgress (candidate : Nat) (s : DiscState) : DiscState × Bool :=
  if (candidate : Int) > s.maxIter then
    ({ s with maxIter := (candidate : Int) }, true)
  else
    (s, false)

/-- Function `flush_results` (discover.py lines 49-58): no-op on an empty buffer;
otherwise, under `json_lock`, load the durable collection, extend it with
the buffered entries, persist it, and clear the buffer. -/
def flushResults (s : DiscState) : DiscState :=
  if s.buf = [] then s
  else { s with store := s.store ++ s.buf, buf := [] }

/-- Function `buffer_result` (discover.py lines 42-47): drop entries marked
`skipped`; otherwise append to the buffer and flush once the buffer length
reaches `BUFFER_LIMIT`.  Also bumps the ghost `offered` counter exactly when
an entry is appended. -/
def bufferResult (entry : Entry) (s : DiscState) : DiscState :=
  if entry.skipped then s
  else
    let s1 := { s with buf := s.buf ++ [entry], offered := s.offered + 1 }
    if BUFFER_LIMIT ≤ s1.buf.length then flushResults s1 else s1

/-- Function `record_failure` (discover.py lines 60-64): under `fail_lock`, increment
the counter and return whether it reached the threshold. -/
def recordFailure (s : DiscState) : DiscState × Bool :=
  ({ s with fails := s.fails + 1 }, MAX_CONSECUTIVE_FAILS ≤ s.fails + 1)

/-- Function `reset_failure_counter` (discover.py lines 66-69). -/
def resetFailureCounter (s : DiscState) : DiscState :=
  { s with fails := 0 }

/-- Classified outcome of one probe, following the branch structure of
`process_iteration` (discover.py lines 75-104): `notFound` is the 404
branch, `httpError` a non-404 `HTTPError`, `requestError` any other
`RequestException`, `nonHtml` a non-HTML content type, and `page title`
a successful HTML response with extracted title. -/
inductive ProbeOutcome where
  | notFound
  | httpError (msg : String)
  | requestError (msg : String)
  | nonHtml
  | page (title : String)
deriving DecidableEq, Repr

/-- Function `process_iteration` (discover.py lines 75-104), given the sampled URL
and the classified outcome of the HTTP exchange.  The returned boolean is
whether the call raised `RuntimeError` (i.e. `record_failure` returned
true).  Note the filter: a title containing `GWO_PUBLISHER` is buffered
with `skipped = True` (a no-op in `buffer_result`); only the non-filtered
branch advances the checkpoint and resets the failure streak. -/
def processIteration (iterIdx : Nat) (url : String) (o : ProbeOutcome)
    (s : DiscState) : DiscState × Bool :=
  match o with
  | .notFound => (s, false)
  | .httpError msg =>
      recordFailure (bufferResult ⟨iterIdx, url, none, some msg, false⟩ s)
  | .requestError msg =>
      recordFailure (bufferResult ⟨iterIdx, url, none, some msg, false⟩ s)
  | .nonHtml =>
      recordFailure
        (bufferResult ⟨iterIdx, url, none, some "Non‑HTML response", false⟩ s)
  | .page title =>
      if GWO_PUBLISHER.data <:+: title.data then
        (bufferResult ⟨iterIdx, url, some title, none, true⟩ s, false)
      else
        resetFailureCounter
          (updateProgress iterIdx
            (bufferResult ⟨iterIdx, url, some title, none, false⟩ s)).1
          |> (fun s2 => (s2, false))

/-- One completed discovery task: its submission index, the sampled URL and
the classified outcome. -/
structure Completion where
  idx : Nat
  url : String
  outcome : ProbeOutcome
deriving DecidableEq, Repr

/-- Effect on the shared state of a list of task completions, in completion
order.  Every listed task ran to completion (a threshold trip only stops
the scheduling of new tasks, not tasks already running). -/
def runAll (tasks : List Completion) (s : DiscState) : DiscState :=
  tasks.foldl (fun s c => (processIteration c.idx c.url c.outcome s).1) s

/-- The dispatch loop of discovery `main` (discover.py lines 110-119): it
consumes completions in order and stops after the first one that raised
(the `RuntimeError` break). -/
def runTasks : List Completion → DiscState → DiscState
  | [], s => s
  | c :: rest, s =>
      match processIteration c.idx c.url c.outcome s with
      | (s1, true) => s1
      | (s1, false) => runTasks rest s1

/-- How discovery `main` terminates: either the dispatch loop runs its
course (normal completion, or abort via a trip inside `runTasks`), or a
`KeyboardInterrupt` arrives after `k` completions. -/
inductive ExitMode where
  | normal
  | interrupted (k : Nat)
deriving DecidableEq, Repr

/-- Discovery `main` (discover.py lines 106-123): process completions until
normal end, abort, or interruption; then — in the `finally` block —
unconditionally flush the result buffer. -/
def discoverMain (tasks : List Completion) (e : ExitMode) (s : DiscState) :
    DiscState :=
  match e with
  | .normal => flushResults (runTasks tasks s)
  | .interrupted k => flushResults (runTasks (tasks.take k) s)

/-- The task indices discovery `main` submits (discover.py line 111):
`range(TOTAL_ITER)`, regardless of the checkpoint value it just read and
printed (line 107-108). -/
def discoverScheduled (totalIter : Nat) (_checkpointStart : Int) : List Nat :=
  List.range totalIter

/-- Whether the outcome takes the non-filtered `Relevant` branch of
`process_iteration` (the only branch that calls `update_progress`). -/
def relevantB (o : ProbeOutcome) : Bool :=
  match o with
  | .page title => !(decide (GWO_PUBLISHER.data <:+: title.data))
  | _ => false

/-- Indices of the completions whose outcome is a non-filtered `Relevant`. -/
def relevantIndices (tasks : List Completion) : List Nat :=
  tasks.filterMap (fun c => if relevantB c.outcome then some c.idx else none)

/-- An operation on the failure breaker: an increment (a failing task) or a
reset (a successful relevant task). -/
inductive BreakerOp where
  | fail
  | reset
deriving DecidableEq, Repr

/-- The booleans returned by the successive `record_failure` calls in a
sequence of breaker operations (resets return nothing). -/
def breakerResults (s : DiscState) : List BreakerOp → List Bool
  | [] => []
  | .fail :: ops =>
      match recordFailure s with
      | (s1, b) => b :: breakerResults s1 ops
  | .reset :: ops => breakerResults (resetFailureCounter s) ops

/-- Constant `MAX_RETRIES` from download.py line 15 (reference default). -/
def MAX_RETRIES : Nat := 3

/-- Python `str.split("/")` on a character list: segments between the
separator occurrences, empty segments included (`"".split("/") = [""]`). -/
def splitSlash : List Char → List (List Char)
  | [] => [[]]
  | c :: rest =>
      match splitSlash rest with
      | [] => [[c]]
      | g :: gs => if c == '/' then [] :: g :: gs else (c :: g) :: gs

/-- Book-id derivation inside `image_url` (download.py line 42):
`display_url.rstrip("/").split("/")[-1]`, on the character list of the URL
(`rstrip("/")` drops trailing separators, `[-1]` takes the last segment). -/
def bookId (displayUrl : String) : String :=
  String.mk
    ((splitSlash
        ((displayUrl.data.reverse.dropWhile (fun c => c == '/')).reverse)).getLastD [])

/-- Function `image_url` (download.py lines 41-43). -/
def imageUrl (displayUrl : String) (page : Nat) : String :=
  "https://flipbook.apps.gwo.pl/book/getImage/bookId:" ++ bookId displayUrl
    ++ "/pageNo:" ++ toString page

/-- Lookup in the retrieval checkpoint mapping (`progress.get(str(iter_id))`
distinguishing a present entry from an absent one).  The mapping is an
association list keyed by the item id. -/
def progGet (prog : List (Nat × Nat)) (k : Nat) : Option Nat :=
  (prog.find? (fun kv => kv.1 == k)).map (fun kv => kv.2)

/-- Assignment `progress[str(iter_id)] = page` (download.py line 76): overwrite the
entry if present, else append it. -/
def progSet (prog : List (Nat × Nat)) (k v : Nat) : List (Nat × Nat) :=
  if prog.any (fun kv => kv.1 == k) then
    prog.map (fun kv => if kv.1 == k then (k, v) else kv)
  else prog ++ [(k, v)]

/-- Start-page computation in retrieval `main` (download.py lines 96-97):
`last_page = progress.get(str(iter_id), 0); start = last_page + 1 if
last_page else START_PAGE`.  Python truthiness of an integer is `≠ 0`.
`startCfg` is the configured `START_PAGE`. -/
def computeStart (prog : List (Nat × Nat)) (startCfg : Nat) (iterId : Nat) :
    Nat :=
  let lastPage := (progGet prog iterId).getD 0
  if lastPage ≠ 0 then lastPage + 1 else startCfg

/-- The bounded retry loop around `fetch_image` (download.py lines 63-69):
up to `MAX_RETRIES` attempts; the page succeeds iff some attempt does.
`fetch url attempt` is the oracle for one `fetch_image(url, dest)` call. -/
def tryFetchPage (fetch : String → Nat → Bool) (url : String) : Bool :=
  (List.range MAX_RETRIES).any (fun a => fetch url (a + 1))

/-- Function `download_iter`'s page loop (download.py lines 54-81), with explicit
fuel for the unbounded `while True`.  Returns the list of pages for which a
fetch was attempted (in order) and the final retrieval checkpoint: a page
that succeeds is recorded via `progSet` and the loop moves to the next
page; a page that exhausts its retries breaks the loop with the checkpoint
untouched. -/
def downloadIterAux (fetch : String → Nat → Bool) (iterId : Nat)
    (display : String) : Nat → Nat → List (Nat × Nat) →
    List Nat × List (Nat × Nat)
  | 0, _, prog => ([], prog)
  | fuel + 1, page, prog =>
      if tryFetchPage fetch (imageUrl display page) then
        let r := downloadIterAux fetch iterId display fuel (page + 1)
          (progSet prog iterId page)
        (page :: r.1, r.2)
      else
        ([page], prog)

/-- One task submitted by retrieval `main` (download.py lines 99-108): the
arguments of one `executor.submit(download_iter, ...)` call. -/
structure DlTask where
  iterId : Nat
  display : String
  title : String
  start : Nat
deriving DecidableEq, Repr

/-- The scheduling loop of retrieval `main` (download.py lines 91-108): one
task per record of the results collection, with
`title = entry.get("title", f"iter_{iter_id}")` and the start page from
`computeStart`. -/
def downloadMainTasks (startCfg : Nat) (prog : List (Nat × Nat)) :
    List Entry → List DlTask
  | [] => []
  | e :: rest =>
      { iterId := e.iter, display := e.url,
        title := e.title.getD ("iter_" ++ toString e.iter),
        start := computeStart prog startCfg e.iter }
        :: downloadMainTasks startCfg prog rest

/-- Crash model of a file update, contents as byte lists: the list of
contents an observer (or a post-crash restart) can find in the target file,
one per crash point, ending with the completed write.

`update_progress` (discover.py lines 31-40) rewrites `progress.json` in
place: after `f.seek(0)`, `json.dump` has written some prefix of the new
serialization over the old bytes (crash after `j` bytes leaves
`new.take j ++ old.drop j`; `j = new.length` is the state just before
`f.truncate()`), and `f.truncate()` completes the write. -/
def inPlaceWriteStates (old new : List Nat) : List (List Nat) :=
  ((List.range (new.length + 1)).map (fun j => new.take j ++ old.drop j))
    ++ [new]

/-- Crash model of `_write_atomic` (download.py lines 27-31), used by
`save_progress` (lines 37-39): while the `j`-th byte of the serialization
is being written to the `.tmp` file the target still holds the old bytes,
and `tmp.replace(path)` switches the target to the new bytes in one atomic
step. -/
def atomicWriteStates (old new : List Nat) : List (List Nat) :=
  ((List.range (new.length + 1)).map (fun _ => old)) ++ [new]

/-! ### Helper lemmas: checkpoint monotonicity machinery -/

theorem flushResults_maxIter (s : DiscState) :
    (flushResults s).maxIter = s.maxIter := by
  unfold flushResults; split <;> rfl

theorem bufferResult_maxIter (e : Entry) (s : DiscState) :
    (bufferResult e s).maxIter = s.maxIter := by
  unfold bufferResult
  split
  · rfl
  · show (if BUFFER_LIMIT ≤ (s.buf ++ [e]).length then
        flushResults { s with buf := s.buf ++ [e], offered := s.offered + 1 }
      else { s with buf := s.buf ++ [e], offered := s.offered + 1 }).maxIter
      = s.maxIter
    split
    · rw [flushResults_maxIter]
    · rfl

theorem updateProgress_maxIter (c : Nat) (s : DiscState) :
    (updateProgress c s).1.maxIter = max s.maxIter (c : Int) := by
  unfold updateProgress
  split <;> rename_i h
  · exact (max_eq_right (le_of_lt h)).symm
  · exact (max_eq_left (not_lt.mp h)).symm

theorem processIteration_maxIter (i : Nat) (u : String) (o : ProbeOutcome)
    (s : DiscState) :
    (processIteration i u o s).1.maxIter =
      if relevantB o = true then max s.maxIter (i : Int) else s.maxIter := by
  cases o with
  | notFound => rfl
  | httpError m => exact bufferResult_maxIter _ s
  | requestError m => exact bufferResult_maxIter _ s
  | nonHtml => exact bufferResult_maxIter _ s
  | page t =>
      by_cases h : GWO_PUBLISHER.data <:+: t.data
      · simp only [processIteration, if_pos h, relevantB, h, decide_True,
          Bool.not_true, Bool.false_eq_true, if_false]
        exact bufferResult_maxIter _ s
      · have hb := bufferResult_maxIter ⟨i, u, some t, none, false⟩ s
        simp only [processIteration, if_neg h, relevantB, h, decide_False,
          Bool.not_false, if_true]
        show (updateProgress i
          (bufferResult ⟨i, u, some t, none, false⟩ s)).1.maxIter = _
        rw [updateProgress_maxIter, hb]

theorem processIteration_maxIter_le (i : Nat) (u : String) (o : ProbeOutcome)
    (s : DiscState) :
    s.maxIter ≤ (processIteration i u o s).1.maxIter := by
  rw [processIteration_maxIter]
  split
  · exact le_max_left _ _
  · exact le_rfl

theorem runAll_cons (c : Completion) (ts : List Completion) (s : DiscState) :
    runAll (c :: ts) s = runAll ts (processIteration c.idx c.url c.outcome s).1 :=
  rfl

theorem relevantIndices_cons (c : Completion) (ts : List Completion) :
    relevantIndices (c :: ts) =
      (if relevantB c.outcome = true then [c.idx] else [])
        ++ relevantIndices ts := by
  unfold relevantIndices
  rw [List.filterMap_cons]
  by_cases hr : relevantB c.outcome = true
  · simp [hr]
  · simp [hr]

theorem runAll_maxIter (tasks : List Completion) (s : DiscState) :
    (runAll tasks s).maxIter =
      (relevantIndices tasks).foldl (fun m i => max m (i : Int)) s.maxIter := by
  induction tasks generalizing s with
  | nil => rfl
  | cons c rest ih =>
      rw [runAll_cons, ih, relevantIndices_cons]
      have hm := processIteration_maxIter c.idx c.url c.outcome s
      by_cases hr : relevantB c.outcome = true
      · rw [if_pos hr] at hm
        rw [hm, if_pos hr]
        rfl
      · rw [if_neg hr] at hm
        rw [hm, if_neg hr]
        rfl

theorem runAll_maxIter_mono (tasks : List Completion) (s : DiscState) :
    s.maxIter ≤ (runAll tasks s).maxIter := by
  induction tasks generalizing s with
  | nil => exact le_rfl
  | cons c rest ih =>
      rw [runAll_cons]
      exact le_trans (processIteration_maxIter_le c.idx c.url c.outcome s) (ih _)

theorem runAll_append (t1 t2 : List Completion) (s : DiscState) :
    runAll (t1 ++ t2) s = runAll t2 (runAll t1 s) :=
  List.foldl_append _ _ _ _

/-! ### Helper lemmas: buffer and store conservation -/

theorem flushResults_content (s : DiscState) :
    (flushResults s).store ++ (flushResults s).buf = s.store ++ s.buf := by
  unfold flushResults
  split <;> simp

theorem flushResults_buf (s : DiscState) : (flushResults s).buf = [] := by
  unfold flushResults
  split <;> rename_i h
  · exact h
  · rfl

theorem flushResults_offered (s : DiscState) :
    (flushResults s).offered = s.offered := by
  unfold flushResults; split <;> rfl

theorem bufferResult_offered (e : Entry) (s : DiscState) :
    (bufferResult e s).offered =
      s.offered + (if e.skipped = true then 0 else 1) := by
  unfold bufferResult flushResults
  split_ifs with h1 <;> simp_all
  split <;> rfl

theorem bufferResult_content (e : Entry) (s : DiscState) :
    (bufferResult e s).store ++ (bufferResult e s).buf =
      s.store ++ s.buf ++ (if e.skipped = true then [] else [e]) := by
  unfold bufferResult flushResults
  split_ifs with h1 <;> simp_all
  split <;> simp

theorem bufferResult_conserve (e : Entry) (s : DiscState) :
    (bufferResult e s).store.length + (bufferResult e s).buf.length
        + s.offered =
      s.store.length + s.buf.length + (bufferResult e s).offered := by
  have hc := congrArg List.length (bufferResult_content e s)
  have ho := bufferResult_offered e s
  simp only [List.length_append] at hc
  by_cases h : e.skipped = true <;> simp [h] at hc ho <;> omega

theorem updateProgress_store (c : Nat) (s : DiscState) :
    (updateProgress c s).1.store = s.store := by
  unfold updateProgress; split <;> rfl

theorem updateProgress_buf (c : Nat) (s : DiscState) :
    (updateProgress c s).1.buf = s.buf := by
  unfold updateProgress; split <;> rfl

theorem updateProgress_offered (c : Nat) (s : DiscState) :
    (updateProgress c s).1.offered = s.offered := by
  unfold updateProgress; split <;> rfl

theorem processIteration_conserve (i : Nat) (u : String) (o : ProbeOutcome)
    (s : DiscState) :
    (processIteration i u o s).1.store.length
        + (processIteration i u o s).1.buf.length + s.offered =
      s.store.length + s.buf.length + (processIteration i u o s).1.offered := by
  cases o with
  | notFound => rfl
  | httpError m => exact bufferResult_conserve _ s
  | requestError m => exact bufferResult_conserve _ s
  | nonHtml => exact bufferResult_conserve _ s
  | page t =>
      by_cases h : GWO_PUBLISHER.data <:+: t.data
      · simp only [processIteration, if_pos h]
        exact bufferResult_conserve _ s
      · simp only [processIteration, if_neg h]
        show (updateProgress i _).1.store.length
            + (updateProgress i _).1.buf.length + s.offered =
          s.store.length + s.buf.length + (updateProgress i _).1.offered
        rw [updateProgress_store, updateProgress_buf, updateProgress_offered]
        exact bufferResult_conserve _ s

theorem runTasks_conserve (tasks : List Completion) (s : DiscState) :
    (runTasks tasks s).store.length + (runTasks tasks s).buf.length
        + s.offered =
      s.store.length + s.buf.length + (runTasks tasks s).offered := by
  induction tasks generalizing s with
  | nil => rfl
  | cons c rest ih =>
      rcases hq : processIteration c.idx c.url c.outcome s with ⟨s1, b⟩
      have hp := processIteration_conserve c.idx c.url c.outcome s
      rw [hq] at hp
      dsimp only at hp
      simp only [runTasks, hq]
      cases b with
      | true => exact hp
      | false =>
          dsimp only
          have h2 := ih s1
          omega

/-! ### Helper lemmas: retrieval checkpoint map -/

theorem progSet_cons_ne (a : Nat × Nat) (rest : List (Nat × Nat)) (k v : Nat)
    (h : (a.1 == k) = false) :
    progSet (a :: rest) k v = a :: progSet rest k v := by
  unfold progSet
  have hne : ¬ a.1 = k := by simpa using h
  simp only [List.any_cons, h, Bool.false_or]
  by_cases hr : rest.any (fun kv => kv.1 == k) = true
  · simp [hr, h, hne]
  · simp [hr, h, hne]

theorem progGet_progSet_self (prog : List (Nat × Nat)) (k v : Nat) :
    progGet (progSet prog k v) k = some v := by
  induction prog with
  | nil => simp [progSet, progGet]
  | cons a rest ih =>
      by_cases hak : (a.1 == k) = true
      · have ha : a.1 = k := by simpa using hak
        simp [progSet, progGet, List.any_cons, hak, ha]
      · have hak' : (a.1 == k) = false := by
          cases hb : (a.1 == k)
          · rfl
          · exact absurd hb hak
        rw [progSet_cons_ne a rest k v hak']
        simp only [progGet, List.find?, hak']
        exact ih

/-! ### Helper lemmas: the retrieval page loop -/

theorem downloadIterAux_run (fetch : String → Nat → Bool) (iterId : Nat)
    (display : String) (N : Nat)
    (h2 : tryFetchPage fetch (imageUrl display (N + 1)) = false) :
    ∀ fuel s prog, (∀ p, s ≤ p → p ≤ N →
        tryFetchPage fetch (imageUrl display p) = true) →
      s ≤ N + 1 → N + 2 - s ≤ fuel →
      (downloadIterAux fetch iterId display fuel s prog).1
          = List.range' s (N + 2 - s)
        ∧ progGet (downloadIterAux fetch iterId display fuel s prog).2 iterId
          = (if s ≤ N then some N else progGet prog iterId) := by
  intro fuel
  induction fuel with
  | zero => intro s prog h1 hs hf; omega
  | succ f ih =>
      intro s prog h1 hs hf
      by_cases hsN : s ≤ N
      · have ht : tryFetchPage fetch (imageUrl display s) = true :=
          h1 s le_rfl hsN
        simp only [downloadIterAux, ht, if_true]
        have hrec := ih (s + 1) (progSet prog iterId s)
          (fun p hp1 hp2 => h1 p (by omega) hp2) (by omega) (by omega)
        constructor
        · dsimp only
          rw [hrec.1]
          have hsplit : N + 2 - s = (N + 2 - (s + 1)) + 1 := by omega
          rw [hsplit, List.range'_succ]
        · dsimp only
          rw [hrec.2]
          by_cases hs1 : s + 1 ≤ N
          · simp [hs1, hsN]
          · have hsN' : s = N := by omega
            rw [if_neg hs1, if_pos hsN, ← hsN']
            exact progGet_progSet_self prog iterId s
      · have hs' : s = N + 1 := by omega
        subst hs'
        simp only [downloadIterAux, h2, Bool.false_eq_true, if_false]
        constructor
        · have h1' : N + 2 - (N + 1) = 1 := by omega
          rw [h1']
          rfl
        · rw [if_neg hsN]

theorem downloadIterAux_pages_ge (fetch : String → Nat → Bool) (iterId : Nat)
    (display : String) :
    ∀ fuel s prog p,
      p ∈ (downloadIterAux fetch iterId display fuel s prog).1 → s ≤ p := by
  intro fuel
  induction fuel with
  | zero =>
      intro s prog p hp
      simp [downloadIterAux] at hp
  | succ f ih =>
      intro s prog p hp
      by_cases ht : tryFetchPage fetch (imageUrl display s) = true
      · simp only [downloadIterAux, ht, if_true] at hp
        rcases List.mem_cons.mp hp with h | h
        · omega
        · have := ih (s + 1) (progSet prog iterId s) p h
          omega
      · have ht' : tryFetchPage fetch (imageUrl display s) = false := by
          cases hb : tryFetchPage fetch (imageUrl display s)
          · rfl
          · exact absurd hb ht
        simp only [downloadIterAux, ht', Bool.false_eq_true, if_false] at hp
        have : p = s := by simpa using hp
        omega

/-! ### Helper lemmas: the failure breaker -/

/-- State reached after a sequence of breaker operations. -/
def applyBreakerOps (s : DiscState) : List BreakerOp → DiscState
  | [] => s
  | .fail :: ops => applyBreakerOps (recordFailure s).1 ops
  | .reset :: ops => applyBreakerOps (resetFailureCounter s) ops

theorem breakerResults_append (l1 l2 : List BreakerOp) (s : DiscState) :
    breakerResults s (l1 ++ l2) =
      breakerResults s l1 ++ breakerResults (applyBreakerOps s l1) l2 := by
  induction l1 generalizing s with
  | nil => rfl
  | cons op rest ih =>
      cases op with
      | fail =>
          simp only [List.cons_append, breakerResults, applyBreakerOps,
            List.append_eq]
          rw [ih]
      | reset =>
          simp only [List.cons_append, breakerResults, applyBreakerOps,
            List.append_eq]
          rw [ih]

theorem breakerResults_replicate_false (n : Nat) (s : DiscState)
    (h : s.fails + n < MAX_CONSECUTIVE_FAILS) :
    breakerResults s (List.replicate n .fail) = List.replicate n false := by
  induction n generalizing s with
  | zero => rfl
  | succ m ih =>
      rw [List.replicate_succ, List.replicate_succ]
      show decide (MAX_CONSECUTIVE_FAILS ≤ s.fails + 1)
          :: breakerResults { s with fails := s.fails + 1 }
              (List.replicate m .fail)
        = false :: List.replicate m false
      rw [decide_eq_false (by omega), ih { s with fails := s.fails + 1 } (by simp; omega)]

theorem breakerResults_reset_cons (s : DiscState) (ops : List BreakerOp) :
    breakerResults s (.reset :: ops) =
      breakerResults (resetFailureCounter s) ops := rfl

/-! ### Claim theorems -/

/-- C1: for any interleaving of discovery task completions (and any split
of it into a prefix and a suffix), the discovery checkpoint after all
completions equals the maximum of its initial value and the sequence
indices of the non-filtered Relevant outcomes, and the checkpoint value
after any prefix of the interleaving never exceeds the final value (it is
monotonically non-decreasing at every intermediate point). -/
theorem checkpoint_monotonicity (s : DiscState) (t1 t2 : List Completion) :
    (runAll (t1 ++ t2) s).maxIter =
        (relevantIndices (t1 ++ t2)).foldl (fun m i => max m (i : Int))
          s.maxIter
      ∧ (runAll t1 s).maxIter ≤ (runAll (t1 ++ t2) s).maxIter := by
  refine ⟨runAll_maxIter _ s, ?_⟩
  rw [runAll_append]
  exact runAll_maxIter_mono t2 (runAll t1 s)

theorem foldBuffer_content (entries : List Entry) (s : DiscState) :
    (entries.foldl (fun s e => bufferResult e s) s).store
        ++ (entries.foldl (fun s e => bufferResult e s) s).buf
      = s.store ++ s.buf ++ entries.filter (fun e => !e.skipped) := by
  induction entries generalizing s with
  | nil => simp
  | cons e rest ih =>
      rw [List.foldl_cons, ih, bufferResult_content, List.filter_cons]
      by_cases h : e.skipped = true
      · simp [h]
      · simp [h]

/-- C3: a sequence of `buffer_result` calls starting from an empty buffer,
closed by one terminal `flush_results`, grows the durable collection by
exactly the non-filtered offered entries (in order); filtered (skipped)
entries are never persisted, and the terminal flush leaves the buffer
empty. -/
theorem flush_completeness (entries : List Entry) (mi : Int)
    (st : List Entry) (fl off : Nat) :
    (flushResults (entries.foldl (fun s e => bufferResult e s)
        { maxIter := mi, buf := [], store := st, fails := fl,
          offered := off })).store
        = st ++ entries.filter (fun e => !e.skipped)
      ∧ (flushResults (entries.foldl (fun s e => bufferResult e s)
          { maxIter := mi, buf := [], store := st, fails := fl,
            offered := off })).buf = []
      ∧ (flushResults (entries.foldl (fun s e => bufferResult e s)
          { maxIter := mi, buf := [], store := st, fails := fl,
            offered := off })).store.length
        = st.length + entries.countP (fun e => !e.skipped) := by
  have hb := flushResults_buf (entries.foldl (fun s e => bufferResult e s)
    { maxIter := mi, buf := [], store := st, fails := fl, offered := off })
  have hc := flushResults_content (entries.foldl (fun s e => bufferResult e s)
    { maxIter := mi, buf := [], store := st, fails := fl, offered := off })
  rw [hb, List.append_nil] at hc
  rw [foldBuffer_content] at hc
  simp only [List.append_nil] at hc
  refine ⟨hc, hb, ?_⟩
  rw [hc]
  simp [List.countP_eq_length_filter]

theorem flushRun_post (ts : List Completion) (s : DiscState) :
    (flushResults (runTasks ts s)).buf = []
      ∧ (flushResults (runTasks ts s)).store.length + s.offered
        = s.store.length + s.buf.length
          + (flushResults (runTasks ts s)).offered := by
  refine ⟨flushResults_buf _, ?_⟩
  have h1 := runTasks_conserve ts s
  have hc := congrArg List.length (flushResults_content (runTasks ts s))
  have hb := flushResults_buf (runTasks ts s)
  have ho := flushResults_offered (runTasks ts s)
  rw [hb] at hc
  simp only [List.length_append, List.length_nil] at hc
  omega

/-- C8: on every exit path of the discovery orchestrator — normal
completion of the dispatch loop, abort after a threshold trip inside the
loop, or operator interruption after any number of completions — the
final flush leaves the buffer empty and the durable collection holds
every entry ever appended to the buffer (the ghost `offered` count), so
no buffered non-filtered item is dropped at shutdown. -/
theorem flush_on_every_exit_path (tasks : List Completion) (e : ExitMode)
    (s : DiscState) :
    (discoverMain tasks e s).buf = []
      ∧ (discoverMain tasks e s).store.length + s.offered
        = s.store.length + s.buf.length + (discoverMain tasks e s).offered := by
  cases e with
  | normal => exact flushRun_post tasks s
  | interrupted k => exact flushRun_post (tasks.take k) s

/-- C4 (counterexample): inserting the single reset at the very front of
the threshold-many failure sequence — one of the positions "anywhere in
the sequence" — does not prevent the trip: the 1000th `record_failure`
still returns true. -/
theorem breaker_reset_anywhere_counterexample :
    true ∈ breakerResults initDiscState
      (.reset :: List.replicate 1000 .fail) := by decide

/-- C4 (amended): from a zero counter, exactly threshold-many (1000)
consecutive `record_failure` calls return false 999 times and then true
exactly at the final call; and inserting one `reset_failure_counter`
strictly between two failures (after at least one and before at least
one, i.e. at position `k` with `1 ≤ k ≤ 999`) makes every `record_failure`
in the sequence return false. -/
theorem failure_breaker_trip_amended (k : Nat) (h1 : 1 ≤ k) (h2 : k ≤ 999) :
    breakerResults initDiscState (List.replicate 1000 .fail)
        = List.replicate 999 false ++ [true]
      ∧ breakerResults initDiscState
          (List.replicate k .fail ++ .reset :: List.replicate (1000 - k) .fail)
        = List.replicate 1000 false := by
  constructor
  · decide
  · rw [breakerResults_append]
    rw [breakerResults_replicate_false k initDiscState
      (by simp only [initDiscState, MAX_CONSECUTIVE_FAILS]; omega)]
    rw [breakerResults_reset_cons]
    rw [breakerResults_replicate_false (1000 - k) _
      (by simp only [resetFailureCounter, MAX_CONSECUTIVE_FAILS]; omega)]
    rw [← List.replicate_add]
    congr 1
    omega

theorem failure_breaker_trip_amended_witness :
    (1 ≤ 500 ∧ 500 ≤ 999)
      ∧ (breakerResults initDiscState (List.replicate 1000 .fail)
            = List.replicate 999 false ++ [true]
        ∧ breakerResults initDiscState
            (List.replicate 500 .fail
              ++ .reset :: List.replicate (1000 - 500) .fail)
          = List.replicate 1000 false) :=
  ⟨⟨by decide, by decide⟩,
    failure_breaker_trip_amended 500 (by decide) (by decide)⟩

/-- C5: an item whose pages `1..N` each succeed within the retry budget
and whose page `N+1` fails on all `MAX_RETRIES` attempts fetches exactly
pages `1..N+1` (so never touches page `N+2` or beyond) and ends with the
retrieval checkpoint reading `N` for that item (an absent entry reads as
`0`, matching the code's own `progress.get(str(iter_id), 0)`). -/
theorem retry_exhaustion_semantics (fetch : String → Nat → Bool)
    (iterId N fuel : Nat) (display : String) (prog : List (Nat × Nat))
    (h1 : ∀ p, 1 ≤ p → p ≤ N → tryFetchPage fetch (imageUrl display p) = true)
    (h2 : tryFetchPage fetch (imageUrl display (N + 1)) = false)
    (h3 : progGet prog iterId = none)
    (h4 : N + 1 ≤ fuel) :
    (downloadIterAux fetch iterId display fuel 1 prog).1
        = List.range' 1 (N + 1)
      ∧ (progGet (downloadIterAux fetch iterId display fuel 1 prog).2
          iterId).getD 0 = N
      ∧ ∀ p ∈ (downloadIterAux fetch iterId display fuel 1 prog).1,
          p ≤ N + 1 := by
  have hrun := downloadIterAux_run fetch iterId display N h2 fuel 1 prog h1
    (by omega) (by omega)
  have hp1 : N + 2 - 1 = N + 1 := by omega
  rw [hp1] at hrun
  refine ⟨hrun.1, ?_, ?_⟩
  · rw [hrun.2]
    by_cases hN : 1 ≤ N
    · rw [if_pos hN]
      rfl
    · rw [if_neg hN, h3]
      simp only [Option.getD_none]
      omega
  · intro p hp
    rw [hrun.1] at hp
    have hm := List.mem_range'_1.mp hp
    omega

theorem retry_exhaustion_semantics_witness :
    (downloadIterAux (fun u _ => !(u == imageUrl "x/5" 3)) 2 "x/5" 5 1 []).1
        = List.range' 1 3
      ∧ (progGet
          (downloadIterAux (fun u _ => !(u == imageUrl "x/5" 3)) 2 "x/5" 5 1
            []).2 2).getD 0 = 2
      ∧ ∀ p ∈ (downloadIterAux (fun u _ => !(u == imageUrl "x/5" 3)) 2 "x/5"
            5 1 []).1, p ≤ 3 :=
  retry_exhaustion_semantics (fun u _ => !(u == imageUrl "x/5" 3)) 2 2 5
    "x/5" []
    (by intro p hp1 hp2; interval_cases p <;> decide)
    (by decide) (by decide) (by decide)

/-- C6 (counterexample): a retrieval checkpoint entry mapping item 7 to
`last_completed_page = 0`, with `START_PAGE = 5`: the entry exists, yet the
start page computed by the code is `START_PAGE = 5`, not
`last_completed_page + 1 = 1` as the claim requires. -/
theorem start_page_zero_entry_counterexample :
    progGet [(7, 0)] 7 = some 0 ∧ computeStart [(7, 0)] 5 7 = 5
      ∧ computeStart [(7, 0)] 5 7 ≠ 0 + 1 := by decide

/-- C6 (amended): the first page fetched is `last_completed_page + 1` when
a checkpoint entry exists with a nonzero value, and the configured
`START_PAGE` both when no entry exists and when the entry is `0` (Python's
integer truthiness folds the zero entry into the default branch). -/
theorem start_page_rule_amended (prog : List (Nat × Nat))
    (cfg iterId : Nat) :
    (∀ P, progGet prog iterId = some P → P ≠ 0 →
        computeStart prog cfg iterId = P + 1)
      ∧ (progGet prog iterId = none → computeStart prog cfg iterId = cfg)
      ∧ (progGet prog iterId = some 0 → computeStart prog cfg iterId = cfg) := by
  refine ⟨?_, ?_, ?_⟩
  · intro P hP hne
    simp [computeStart, hP, hne]
  · intro h
    simp [computeStart, h]
  · intro h
    simp [computeStart, h]

theorem start_page_rule_amended_witness :
    computeStart [(3, 4)] 9 3 = 5 ∧ computeStart [] 9 3 = 9
      ∧ computeStart [(3, 0)] 9 3 = 9 :=
  ⟨(start_page_rule_amended [(3, 4)] 9 3).1 4 (by decide) (by decide),
   (start_page_rule_amended [] 9 3).2.1 (by decide),
   (start_page_rule_amended [(3, 0)] 9 3).2.2 (by decide)⟩

/-- C9: a retrieval checkpoint entry of `0` is treated exactly as a
missing entry: the start page is the configured `START_PAGE`, identical to
what an empty checkpoint yields. -/
theorem zero_entry_treated_as_missing (prog : List (Nat × Nat))
    (cfg iterId : Nat) (h : progGet prog iterId = some 0) :
    computeStart prog cfg iterId = cfg
      ∧ computeStart prog cfg iterId = computeStart [] cfg iterId := by
  have h1 : computeStart prog cfg iterId = cfg := by simp [computeStart, h]
  have h2 : computeStart [] cfg iterId = cfg := by
    simp [computeStart, progGet]
  exact ⟨h1, by rw [h1, h2]⟩

theorem zero_entry_treated_as_missing_witness :
    computeStart [(3, 0)] 1 3 = 1
      ∧ computeStart [(3, 0)] 1 3 = computeStart [] 1 3 :=
  zero_entry_treated_as_missing [(3, 0)] 1 3 (by decide)

/-- C7 (counterexample): discovery `main` schedules `range(TOTAL_ITER)`
regardless of the checkpoint it read — with checkpoint `max_iter = 5` and
one task, index `0 ≤ 5` is re-probed; if it classifies as Relevant the
re-run appends a second record with `iter = 0` next to the one persisted
by the first run, a duplicate artifact for an index `≤ K`. -/
theorem rerun_duplicate_counterexample :
    discoverScheduled 1 5 = [0]
      ∧ ((discoverMain [⟨0, "u1", .page "tytuł"⟩] .normal
            { maxIter := 5, buf := [],
              store := [⟨0, "u0", some "t0", none, false⟩], fails := 0,
              offered := 1 }).store.countP (fun e => e.iter == 0)) = 2 := by
  decide

/-- C7 (amended): retrieval re-runs are idempotent — an item resumed from
a checkpoint entry `last_completed_page = P ≠ 0` only ever fetches pages
strictly above `P` — while discovery re-runs submit the same index range
whatever the checkpoint says, so duplicates below the discovery checkpoint
are possible (tolerated per the data model) rather than prevented. -/
theorem idempotent_rerun_amended (fetch : String → Nat → Bool)
    (iterId : Nat) (display : String) (prog : List (Nat × Nat))
    (cfg fuel P : Nat) (hP : progGet prog iterId = some P) (hne : P ≠ 0) :
    (∀ p ∈ (downloadIterAux fetch iterId display fuel
        (computeStart prog cfg iterId) prog).1, P < p)
      ∧ ∀ total : Nat, ∀ K Kp : Int,
          discoverScheduled total K = discoverScheduled total Kp := by
  constructor
  · intro p hp
    have hs : computeStart prog cfg iterId = P + 1 := by
      simp [computeStart, hP, hne]
    rw [hs] at hp
    have hge := downloadIterAux_pages_ge fetch iterId display fuel (P + 1)
      prog p hp
    omega
  · intro total K Kp
    rfl

theorem idempotent_rerun_amended_witness :
    (∀ p ∈ (downloadIterAux (fun _ _ => false) 4 "d" 1
        (computeStart [(4, 7)] 1 4) [(4, 7)]).1, 7 < p)
      ∧ ∀ total : Nat, ∀ K Kp : Int,
          discoverScheduled total K = discoverScheduled total Kp :=
  idempotent_rerun_amended (fun _ _ => false) 4 "d" [(4, 7)] 1 1 7
    (by decide) (by decide)

/-- C10: the retrieval orchestrator schedules one page-retrieval task per
record of the durable results collection — error-audit records included —
with the title defaulting to `iter_<id>` when the record has none, the
record's URL passed as the display URL (from which `image_url` derives the
book id), and the start page from the checkpoint rule. -/
theorem all_records_scheduled (cfg : Nat) (prog : List (Nat × Nat))
    (items : List Entry) :
    List.Forall₂ (fun (e : Entry) (t : DlTask) =>
        t.iterId = e.iter ∧ t.display = e.url
          ∧ t.title = e.title.getD ("iter_" ++ toString e.iter)
          ∧ t.start = computeStart prog cfg e.iter)
      items (downloadMainTasks cfg prog items)
      ∧ (downloadMainTasks cfg prog items).length = items.length := by
  constructor
  · induction items with
    | nil => exact List.Forall₂.nil
    | cons e rest ih => exact List.Forall₂.cons ⟨rfl, rfl, rfl, rfl⟩ ih
  · induction items with
    | nil => rfl
    | cons e rest ih => simp only [downloadMainTasks, List.length_cons, ih]

/-- C2: `_write_atomic` (used by the retrieval checkpoint's
`save_progress`) is crash-atomic — every crash point leaves the target
file holding either the complete old or the complete new bytes — but the
discovery checkpoint's `update_progress` is not: it rewrites the file in
place, and (for example, old content of 3 bytes, new content of 2 bytes)
a crash between `json.dump` and `f.truncate`, or mid-`dump`, leaves a
state that is neither the old nor the new value. -/
theorem checkpoint_write_crash_atomicity_bug :
    (∀ old new : List Nat,
        ((atomicWriteStates old new).all
          (fun st => decide (st = old) || decide (st = new))) = true)
      ∧ ((inPlaceWriteStates [0, 0, 0] [1, 1]).all
          (fun st => decide (st = [0, 0, 0]) || decide (st = [1, 1]))) = false := by
  constructor
  · intro old new
    simp [atomicWriteStates, List.all_eq_true]
  · decide
